import Mathlib

/-!
Verification of the salesassitai_ui mobile client against its
natural-language specification.  The repository is a React Native /
Expo application; the parts relevant to the claims are embedded
shallowly below: pure helper functions become Lean functions, the
side-effecting handlers become functions from their inputs (component
state, network oracle) to the observable outputs they produce
(WebSocket send traces, resulting component state, raised errors).
JavaScript exceptions are modelled with `Except String`; JavaScript
`undefined`/`null` and truthiness are modelled explicitly where the
code relies on them.
-/

namespace SalesAssist

/-! ## A small model of JavaScript values

Several helpers (`isValidAcademicResponse`, `formatAcademicRecommendations`)
receive arbitrary parsed-JSON values typed `any` and rely on JavaScript
truthiness and property access.  We model the value universe directly.
-/

inductive JSVal where
  | undefined : JSVal
  | null : JSVal
  | bool (b : Bool) : JSVal
  | num (n : Int) : JSVal
  | str (s : String) : JSVal
  | arr (elems : List JSVal) : JSVal
  | obj (fields : List (String × JSVal)) : JSVal

namespace JSVal

/-- JavaScript truthiness: `undefined`, `null`, `false`, `0`, and `""` are
falsy; every object and array (even empty) is truthy. -/
def truthy : JSVal → Bool
  | .undefined => false
  | .null => false
  | .bool b => b
  | .num n => n != 0
  | .str s => s != ""
  | .arr _ => true
  | .obj _ => true

/-- Property read `v.f`.  Throws a TypeError on `null`/`undefined`;
returns `undefined` for a missing key or a non-object receiver
(primitive boxing). -/
def getField : JSVal → String → Except String JSVal
  | .undefined, _ => .error "TypeError: cannot read properties of undefined"
  | .null, _ => .error "TypeError: cannot read properties of null"
  | .obj fields, f => .ok ((fields.lookup f).getD .undefined)
  | _, _ => .ok .undefined

/-- Property read used when the receiver is known not to throw:
total version of `getField`, giving `undefined` on `null`/`undefined`
receivers.  Used only in specification-side statements. -/
def fieldOf (v : JSVal) (f : String) : JSVal :=
  match v with
  | .obj fields => (fields.lookup f).getD .undefined
  | _ => .undefined

theorem getField_eq_fieldOf (v : JSVal) (f : String)
    (h : v.truthy = true) : v.getField f = .ok (v.fieldOf f) := by
  cases v <;> simp_all [truthy, getField, fieldOf]

end JSVal

/-! ## Audio chunking (real-time voice screen, `stopRecording`)

Both the web and the mobile branch of `stopRecording` split the decoded
audio bytes into 8 KiB slices:

```js
const chunkSize = 8192; // 8KB chunks
for (let i = 0; i < bytes.length; i += chunkSize) {
  const chunk = bytes.slice(i, i + chunkSize);
  wsRef.current.send(chunk.buffer);
}
```

`slice` clamps its end index, so each iteration takes the next at most
8192 bytes.  We model a byte as a `Nat` and the loop as structural
recursion on the remaining bytes.
-/

def chunkSize : Nat := 8192

/-- One iteration of the chunking loop per unit of fuel; the loop
advances by `chunkSize ≥ 1` bytes each iteration, so fuel equal to the
byte count always suffices. -/
def chunkGo : Nat → List Nat → List (List Nat)
  | _, [] => []
  | 0, _ :: _ => []
  | fuel + 1, b :: bs =>
      List.take chunkSize (b :: bs) :: chunkGo fuel (List.drop chunkSize (b :: bs))

/-- The list of binary chunks produced by the `for` loop above, in send
order. -/
def chunkBytes (l : List Nat) : List (List Nat) := chunkGo l.length l

theorem chunkGo_fuel_irrel :
    ∀ f₁ : Nat, ∀ f₂ : Nat, ∀ l : List Nat,
      l.length ≤ f₁ → l.length ≤ f₂ → chunkGo f₁ l = chunkGo f₂ l := by
  intro f₁
  induction f₁ with
  | zero =>
    intro f₂ l h₁ _
    have : l = [] := List.eq_nil_of_length_eq_zero (Nat.le_zero.mp h₁)
    subst this
    cases f₂ <;> rfl
  | succ f ih =>
    intro f₂ l h₁ h₂
    cases l with
    | nil => cases f₂ <;> rfl
    | cons b bs =>
      cases f₂ with
      | zero => exact absurd h₂ (by simp)
      | succ f' =>
        simp only [chunkGo]
        have hd : (List.drop chunkSize (b :: bs)).length ≤ f := by
          simp only [List.length_drop, List.length_cons]
          simp only [List.length_cons] at h₁
          have : 0 < chunkSize := by simp [chunkSize]
          omega
        have hd' : (List.drop chunkSize (b :: bs)).length ≤ f' := by
          simp only [List.length_drop, List.length_cons]
          simp only [List.length_cons] at h₂
          have : 0 < chunkSize := by simp [chunkSize]
          omega
        rw [ih _ _ hd hd']

theorem chunkBytes_nil : chunkBytes [] = [] := rfl

theorem chunkBytes_cons (b : Nat) (bs : List Nat) :
    chunkBytes (b :: bs) =
      List.take chunkSize (b :: bs) :: chunkBytes (List.drop chunkSize (b :: bs)) := by
  show chunkGo (bs.length + 1) (b :: bs) = _
  simp only [chunkGo, chunkBytes]
  rw [chunkGo_fuel_irrel bs.length (List.drop chunkSize (b :: bs)).length
        (List.drop chunkSize (b :: bs))
        (by simp only [List.length_drop, List.length_cons]
            have : 0 < chunkSize := by simp [chunkSize]
            omega)
        (Nat.le_refl _)]

theorem chunkGo_flatten :
    ∀ fuel : Nat, ∀ l : List Nat, l.length ≤ fuel → (chunkGo fuel l).flatten = l := by
  intro fuel
  induction fuel with
  | zero =>
    intro l h
    have : l = [] := List.eq_nil_of_length_eq_zero (Nat.le_zero.mp h)
    subst this
    rfl
  | succ f ih =>
    intro l h
    cases l with
    | nil => rfl
    | cons b bs =>
      simp only [chunkGo, List.flatten_cons]
      rw [ih (List.drop chunkSize (b :: bs))
            (by simp only [List.length_drop, List.length_cons]
                simp only [List.length_cons] at h
                have : 0 < chunkSize := by simp [chunkSize]
                omega),
          List.take_append_drop]

/-- Concatenating the chunks in send order recovers the original bytes. -/
theorem chunkBytes_flatten (l : List Nat) : (chunkBytes l).flatten = l :=
  chunkGo_flatten l.length l (Nat.le_refl _)

theorem chunkGo_dropLast_length :
    ∀ fuel : Nat, ∀ l : List Nat, l.length ≤ fuel →
      ∀ c ∈ (chunkGo fuel l).dropLast, c.length = chunkSize := by
  intro fuel
  induction fuel with
  | zero =>
    intro l h
    have : l = [] := List.eq_nil_of_length_eq_zero (Nat.le_zero.mp h)
    subst this
    simp [chunkGo]
  | succ f ih =>
    intro l h
    cases l with
    | nil => simp [chunkGo]
    | cons b bs =>
      simp only [chunkGo]
      cases hrest : chunkGo f (List.drop chunkSize (b :: bs)) with
      | nil => simp
      | cons c cs =>
        have hne : List.drop chunkSize (b :: bs) ≠ [] := by
          intro hcontra
          rw [hcontra] at hrest
          cases f <;> exact List.noConfusion hrest
        have hlong : chunkSize < (b :: bs).length := by
          by_contra hle
          exact hne (List.drop_eq_nil_of_le (Nat.le_of_not_lt hle))
        have htake : (List.take chunkSize (b :: bs)).length = chunkSize := by
          rw [List.length_take]
          omega
        intro x hx
        rw [List.dropLast_cons_of_ne_nil (by simp : c :: cs ≠ [])] at hx
        rcases List.mem_cons.mp hx with hx | hx
        · rw [hx]; exact htake
        · have hdlen : (List.drop chunkSize (b :: bs)).length ≤ f := by
            simp only [List.length_drop, List.length_cons]
            simp only [List.length_cons] at h
            have : 0 < chunkSize := by simp [chunkSize]
            omega
          have := ih (List.drop chunkSize (b :: bs)) hdlen
          rw [hrest] at this
          exact this x hx

/-- Every chunk except possibly the last has length exactly `chunkSize`. -/
theorem chunkBytes_dropLast_length (l : List Nat) :
    ∀ c ∈ (chunkBytes l).dropLast, c.length = chunkSize :=
  chunkGo_dropLast_length l.length l (Nat.le_refl _)

theorem chunkGo_length_le :
    ∀ fuel : Nat, ∀ l : List Nat, l.length ≤ fuel →
      ∀ c ∈ chunkGo fuel l, 0 < c.length ∧ c.length ≤ chunkSize := by
  intro fuel
  induction fuel with
  | zero =>
    intro l h
    have : l = [] := List.eq_nil_of_length_eq_zero (Nat.le_zero.mp h)
    subst this
    simp [chunkGo]
  | succ f ih =>
    intro l h
    cases l with
    | nil => simp [chunkGo]
    | cons b bs =>
      simp only [chunkGo]
      intro c hc
      rcases List.mem_cons.mp hc with hc | hc
      · subst hc
        refine ⟨by simp [chunkSize], ?_⟩
        rw [List.length_take]
        exact Nat.min_le_left _ _
      · have hdlen : (List.drop chunkSize (b :: bs)).length ≤ f := by
          simp only [List.length_drop, List.length_cons]
          simp only [List.length_cons] at h
          have : 0 < chunkSize := by simp [chunkSize]
          omega
        exact ih (List.drop chunkSize (b :: bs)) hdlen c hc

/-- Every chunk is nonempty and has length at most `chunkSize`. -/
theorem chunkBytes_length_le (l : List Nat) :
    ∀ c ∈ chunkBytes l, 0 < c.length ∧ c.length ≤ chunkSize :=
  chunkGo_length_le l.length l (Nat.le_refl _)

/-! ## `stopRecording` send trace (real-time voice screen)

`stopRecording` in `app/(tabs)/_layout.tsx` sends, over the open
WebSocket: a JSON start marker `{ type: 'audio', user_id }`, then the
binary chunks, then a JSON end marker `{ type: 'audio_end', user_id }`.
Before any send it returns early when no recording is active, when no
recording URI is available, or when the socket is not `OPEN`.  Reading
the recorded audio (the `fetch`/blob path on web, the
base64-file-read path on mobile) can throw — including the explicit
`throw` when the audio is empty — in which case the surrounding
`try`/`catch` swallows the error after the start marker has already
been sent and before any further socket send.
-/

inductive WsSend where
  | jsonMsg (msgType : String) (userId : String)
  | binary (chunk : List Nat)
  deriving DecidableEq

def isStartMarker : WsSend → Bool
  | .jsonMsg t _ => t == "audio"
  | .binary _ => false

def isEndMarker : WsSend → Bool
  | .jsonMsg t _ => t == "audio_end"
  | .binary _ => false

/-- The sequence of WebSocket sends performed by one `stopRecording`
call, as a function of the component state it reads: whether a
recording is active, the recording URI (after both `getURI` attempts),
whether `wsRef.current` exists and is `OPEN`, the user id sent in the
markers, and the outcome of reading the recorded audio bytes. -/
def stopRecordingSends (recordingActive : Bool) (recordingUri : Option String)
    (wsOpen : Bool) (userId : String) (audioRead : Except String (List Nat)) :
    List WsSend :=
  if !recordingActive then []
  else
    match recordingUri with
    | none => []
    | some _ =>
      if !wsOpen then []
      else
        WsSend.jsonMsg "audio" userId ::
          (match audioRead with
           | .error _ => []
           | .ok bytes =>
             if bytes.isEmpty then []
             else (chunkBytes bytes).map WsSend.binary ++
               [WsSend.jsonMsg "audio_end" userId])

/-- The binary chunks of a send trace, in send order. -/
def binaryChunks (trace : List WsSend) : List (List Nat) :=
  trace.filterMap fun m =>
    match m with
    | .binary c => some c
    | .jsonMsg _ _ => none

theorem binaryChunks_map_binary (cs : List (List Nat)) :
    binaryChunks (cs.map WsSend.binary) = cs := by
  induction cs with
  | nil => rfl
  | cons c cs ih => simp [binaryChunks, List.filterMap_cons] at ih ⊢; exact ih

theorem countP_map_binary_start (cs : List (List Nat)) :
    (cs.map WsSend.binary).countP isStartMarker = 0 := by
  rw [List.countP_eq_zero]
  intro a ha
  rcases List.mem_map.mp ha with ⟨c, _, rfl⟩
  simp [isStartMarker]

theorem countP_map_binary_end (cs : List (List Nat)) :
    (cs.map WsSend.binary).countP isEndMarker = 0 := by
  rw [List.countP_eq_zero]
  intro a ha
  rcases List.mem_map.mp ha with ⟨c, _, rfl⟩
  simp [isEndMarker]

/-! ## WebSocket `onclose` reconnection (real-time voice screen)

```js
ws.onclose = (event) => {
  ...
  if (event.code !== 1000 && event.code !== 1001) {
    setTimeout(() => {
      if (user?.id && wsRef.current?.readyState !== WebSocket.OPEN) {
        connectWebSocket();
      }
    }, 3000);
  } else { ... }
};
```
-/

/-- `WebSocket.OPEN` readyState constant. -/
def wsOPEN : Nat := 1

/-- Truthiness of `user?.id`: present and non-empty. -/
def optTruthy : Option String → Bool
  | none => false
  | some s => s != ""

/-- The `onclose` handler's scheduling decision: `some delay` when it
schedules the reconnection timeout (with the delay in milliseconds),
`none` when it does not. -/
def onCloseReconnect (code : Nat) : Option Nat :=
  if code != 1000 && code != 1001 then some 3000 else none

/-- The body of the scheduled timeout: whether `connectWebSocket()` is
invoked, given `user?.id` and `wsRef.current?.readyState` at firing
time (`none` when `wsRef.current` is `null`). -/
def reconnectTimeoutBody (userId : Option String) (readyState : Option Nat) : Bool :=
  optTruthy userId && readyState != some wsOPEN

end SalesAssist

namespace SalesAssist

/-- C1 (counterexample): a recording is stopped while the WebSocket is
open, but reading the recorded audio fails (here: the web branch's
`fetch` of the recording URI returns a non-ok status and the code
throws).  The start marker has already been sent, the `catch` swallows
the error, and no end marker is ever sent: the trace is the start
marker alone, with zero end markers, contradicting "then exactly one
JSON end marker". -/
theorem stopRecording_read_error_no_end_marker :
    stopRecordingSends true (some "recording.m4a") true "user-1"
        (Except.error "Failed to fetch audio: 500") =
      [WsSend.jsonMsg "audio" "user-1"] ∧
    (stopRecordingSends true (some "recording.m4a") true "user-1"
        (Except.error "Failed to fetch audio: 500")).countP isEndMarker = 0 :=
  ⟨rfl, rfl⟩

/-- C1 (amended): when a recording is stopped while the WebSocket is
open and reading the recorded audio succeeds with non-empty bytes, the
sends are exactly one start marker, then the binary chunks, then one
end marker, in that order; in particular no binary chunk precedes the
start marker or follows the end marker.  (When the read fails or the
audio is empty, only the start marker is sent.) -/
theorem stopRecording_protocol_order (userId u : String) (bytes : List Nat)
    (hne : bytes ≠ []) :
    stopRecordingSends true (some u) true userId (Except.ok bytes) =
      WsSend.jsonMsg "audio" userId ::
        ((chunkBytes bytes).map WsSend.binary ++
          [WsSend.jsonMsg "audio_end" userId]) ∧
    (stopRecordingSends true (some u) true userId (Except.ok bytes)).countP
        isStartMarker = 1 ∧
    (stopRecordingSends true (some u) true userId (Except.ok bytes)).countP
        isEndMarker = 1 := by
  have hempty : bytes.isEmpty = false := by
    cases bytes with
    | nil => exact absurd rfl hne
    | cons b bs => rfl
  have htrace : stopRecordingSends true (some u) true userId (Except.ok bytes) =
      WsSend.jsonMsg "audio" userId ::
        ((chunkBytes bytes).map WsSend.binary ++
          [WsSend.jsonMsg "audio_end" userId]) := by
    simp [stopRecordingSends, hempty]
  refine ⟨htrace, ?_, ?_⟩
  · rw [htrace, List.countP_cons, List.countP_append, countP_map_binary_start]
    rfl
  · rw [htrace, List.countP_cons, List.countP_append, countP_map_binary_end]
    rfl

/-- C1 (witness): concrete three-byte recording; the trace is exactly
start marker, one binary chunk, end marker. -/
theorem stopRecording_protocol_order_example :
    stopRecordingSends true (some "recording.m4a") true "user-1"
        (Except.ok [1, 2, 3]) =
      [WsSend.jsonMsg "audio" "user-1", WsSend.binary [1, 2, 3],
       WsSend.jsonMsg "audio_end" "user-1"] := by
  have h := (stopRecording_protocol_order "user-1" "recording.m4a" [1, 2, 3]
    (by decide)).1
  rw [h]
  rfl

/-- C2: for every recorded byte sequence, the binary chunks sent by
`stopRecording` (over an open socket, with a recording URI available)
are exactly the 8 KiB slices of the bytes: concatenated in send order
they equal the original byte sequence, and every chunk except possibly
the last is exactly 8192 bytes long. -/
theorem stopRecording_chunks_faithful (userId u : String) (bytes : List Nat) :
    binaryChunks (stopRecordingSends true (some u) true userId (Except.ok bytes)) =
      chunkBytes bytes ∧
    (chunkBytes bytes).flatten = bytes ∧
    ((chunkBytes bytes).dropLast.all fun c => c.length == chunkSize) = true := by
  refine ⟨?_, chunkBytes_flatten bytes, ?_⟩
  · cases bytes with
    | nil => rfl
    | cons b bs =>
      have : (b :: bs).isEmpty = false := rfl
      simp only [stopRecordingSends, this, Bool.not_true, Bool.false_eq_true,
        if_false, if_true, Bool.not_false]
      rw [show binaryChunks (WsSend.jsonMsg "audio" userId ::
            ((chunkBytes (b :: bs)).map WsSend.binary ++
              [WsSend.jsonMsg "audio_end" userId])) =
          binaryChunks ((chunkBytes (b :: bs)).map WsSend.binary ++
              [WsSend.jsonMsg "audio_end" userId]) from rfl]
      rw [show binaryChunks ((chunkBytes (b :: bs)).map WsSend.binary ++
              [WsSend.jsonMsg "audio_end" userId]) =
          binaryChunks ((chunkBytes (b :: bs)).map WsSend.binary) ++
            binaryChunks [WsSend.jsonMsg "audio_end" userId] from
        List.filterMap_append _ _ _]
      rw [binaryChunks_map_binary]
      simp [binaryChunks, List.filterMap_cons]
  · rw [List.all_eq_true]
    intro c hc
    exact beq_iff_eq.mpr (chunkBytes_dropLast_length bytes c hc)

/-- C3: the `onclose` handler schedules a reconnection attempt, with a
3000 ms delay, if and only if the close code is neither 1000 nor 1001;
and the scheduled timeout body invokes `connectWebSocket` only when a
user id is present (truthy) and the current socket's readyState is not
`OPEN`. -/
theorem onclose_reconnect_iff (code : Nat) :
    ((onCloseReconnect code).isSome ↔ (code ≠ 1000 ∧ code ≠ 1001)) ∧
    (onCloseReconnect code = none ∨ onCloseReconnect code = some 3000) ∧
    (∀ userId : Option String, ∀ readyState : Option Nat,
      reconnectTimeoutBody userId readyState = true →
        optTruthy userId = true ∧ readyState ≠ some wsOPEN) := by
  refine ⟨?_, ?_, ?_⟩
  · unfold onCloseReconnect
    by_cases h0 : code = 1000
    · simp [h0]
    · by_cases h1 : code = 1001
      · simp [h1]
      · simp [h0, h1]
  · unfold onCloseReconnect
    by_cases h : (code != 1000 && code != 1001) = true
    · rw [if_pos h]; right; rfl
    · rw [if_neg h]; left; rfl
  · intro userId readyState h
    unfold reconnectTimeoutBody at h
    rw [Bool.and_eq_true] at h
    rcases h with ⟨hu, hr⟩
    refine ⟨hu, ?_⟩
    intro hcontra
    rw [hcontra] at hr
    simp at hr

/-- C3 (witness): an abnormal close (code 1006) schedules a 3000 ms
reconnect, and a timeout firing with a present user id and a CLOSED
(readyState 3) socket satisfies the invocation conditions. -/
theorem onclose_reconnect_iff_example :
    (onCloseReconnect 1006).isSome ∧ onCloseReconnect 1006 = some 3000 ∧
    optTruthy (some "user-1") = true ∧ (some 3 : Option Nat) ≠ some wsOPEN := by
  have h := onclose_reconnect_iff 1006
  refine ⟨h.1.mpr ⟨by decide, by decide⟩, ?_, ?_⟩
  · rcases h.2.1 with hnone | hsome
    · exact absurd hnone (by decide)
    · exact hsome
  · exact h.2.2 (some "user-1") (some 3) (by decide)

/-! ## The `Recording` interfaces

The repository declares `Recording` twice.  The interface used by the
recording context and `RecordingItem`:

```ts
export interface Recording {
  id: string; uri: string; duration: number; timestamp: number;
  title: string; fileUrl?: string; transcription?: string; analysis?: string;
}
```

and a second, legacy declaration elsewhere:

```ts
export interface Recording {
  id: string; fileUrl: string; transcription: string;
  summary: string; tips: string; createdAt: string;
}
```

We embed each interface as its list of `(fieldName, required)` pairs in
declaration order (`required = false` for the `?`-marked fields).
-/

def contextRecordingFields : List (String × Bool) :=
  [("id", true), ("uri", true), ("duration", true), ("timestamp", true),
   ("title", true), ("fileUrl", false), ("transcription", false),
   ("analysis", false)]

def legacyRecordingFields : List (String × Bool) :=
  [("id", true), ("fileUrl", true), ("transcription", true),
   ("summary", true), ("tips", true), ("createdAt", true)]

def requiredNames (fields : List (String × Bool)) : List String :=
  (fields.filter fun p => p.2).map fun p => p.1

def optionalNames (fields : List (String × Bool)) : List String :=
  (fields.filter fun p => !p.2).map fun p => p.1

/-- The shape the claim ascribes to `Recording`: these and only these
required fields, and these optional fields. -/
def claimedRequired : List String := ["id", "uri", "duration", "timestamp", "title"]

def claimedOptional : List String := ["transcription", "analysis", "fileUrl"]

def sameElems (xs ys : List String) : Bool :=
  (xs.all fun x => ys.contains x) && (ys.all fun y => xs.contains y)

def matchesClaimedShape (fields : List (String × Bool)) : Bool :=
  sameElems (requiredNames fields) claimedRequired &&
    sameElems (optionalNames fields) claimedOptional

/-- C4 (counterexample): the legacy `Recording` declaration does not
have the claimed shape: it requires `summary` (and `tips`, `createdAt`,
`fileUrl`, `transcription`), and has no `uri` field at all. -/
theorem recording_legacy_shape_mismatch :
    matchesClaimedShape legacyRecordingFields = false ∧
    ("summary", true) ∈ legacyRecordingFields ∧
    ("transcription", true) ∈ legacyRecordingFields ∧
    (∀ b : Bool, ("uri", b) ∉ legacyRecordingFields) := by
  refine ⟨by decide, by decide, by decide, ?_⟩
  intro b
  cases b <;> decide

/-- C4 (amended): the `Recording` interface used by the recording
context has exactly the claimed shape — required `id`, `uri`,
`duration`, `timestamp`, `title` and optional `transcription`,
`analysis`, `fileUrl`, with no other required fields — while the
repository's second, legacy `Recording` declaration instead requires
`id`, `fileUrl`, `transcription`, `summary`, `tips`, `createdAt`. -/
theorem recording_context_shape :
    matchesClaimedShape contextRecordingFields = true ∧
    matchesClaimedShape legacyRecordingFields = false ∧
    requiredNames legacyRecordingFields =
      ["id", "fileUrl", "transcription", "summary", "tips", "createdAt"] := by
  decide

/-! ## HTTP helpers (`utils/academicApi.ts`)

Each helper has the shape

```ts
const response = await fetch(...);
if (!response.ok) { throw new Error(`<prefix>: ${response.status}`); }
return await response.json();
```

wrapped in a `try`/`catch` that logs and re-throws.  `response.ok` is
the Fetch-standard predicate `200 ≤ status ≤ 299`.  We model the
response the backend produced by its status and (already parsed) JSON
body.
-/

structure HttpResponse where
  status : Nat
  body : JSVal

def respOk (r : HttpResponse) : Bool := 200 ≤ r.status && r.status ≤ 299

def searchPrograms (r : HttpResponse) : Except String JSVal :=
  if !respOk r then .error ("Search failed: " ++ toString r.status)
  else .ok r.body

def getExplorationHistory (r : HttpResponse) : Except String JSVal :=
  if !respOk r then .error ("Failed to get history: " ++ toString r.status)
  else .ok r.body

def getDetailedExploration (r : HttpResponse) : Except String JSVal :=
  if !respOk r then
    .error ("Failed to get exploration details: " ++ toString r.status)
  else .ok r.body

def generateDetailedAnalysis (r : HttpResponse) : Except String JSVal :=
  if !respOk r then .error ("Analysis failed: " ++ toString r.status)
  else .ok r.body

/-- C5: each of the four HTTP helpers returns the parsed JSON body on
an ok response, and on a non-ok response raises an error whose message
ends with (hence contains) the status code, returning no value. -/
theorem academic_api_error_handling (r : HttpResponse) :
    (respOk r = true →
      searchPrograms r = .ok r.body ∧
      getExplorationHistory r = .ok r.body ∧
      getDetailedExploration r = .ok r.body ∧
      generateDetailedAnalysis r = .ok r.body) ∧
    (respOk r = false →
      searchPrograms r = .error ("Search failed: " ++ toString r.status) ∧
      getExplorationHistory r =
        .error ("Failed to get history: " ++ toString r.status) ∧
      getDetailedExploration r =
        .error ("Failed to get exploration details: " ++ toString r.status) ∧
      generateDetailedAnalysis r =
        .error ("Analysis failed: " ++ toString r.status)) := by
  constructor
  · intro h
    refine ⟨?_, ?_, ?_, ?_⟩ <;>
      simp [searchPrograms, getExplorationHistory, getDetailedExploration,
        generateDetailedAnalysis, h]
  · intro h
    refine ⟨?_, ?_, ?_, ?_⟩ <;>
      simp [searchPrograms, getExplorationHistory, getDetailedExploration,
        generateDetailedAnalysis, h]

/-- C5 (witness): a 404 response makes `searchPrograms` raise
`Search failed: 404`, and a 200 response makes it return the body. -/
theorem academic_api_error_handling_example :
    searchPrograms ⟨404, JSVal.null⟩ = .error "Search failed: 404" ∧
    searchPrograms ⟨200, JSVal.str "data"⟩ = .ok (JSVal.str "data") := by
  have h404 := ((academic_api_error_handling ⟨404, JSVal.null⟩).2 (by decide)).1
  have h200 := ((academic_api_error_handling ⟨200, JSVal.str "data"⟩).1 (by decide)).1
  refine ⟨?_, h200⟩
  rw [h404]
  congr 1

/-! ## `RecordingItem.formatDuration` -/

/-- `String.prototype.padStart(targetLength, pad)` for a single pad
character. -/
def padStart (s : String) (targetLength : Nat) (pad : Char) : String :=
  if targetLength ≤ s.length then s
  else String.mk (List.replicate (targetLength - s.length) pad) ++ s

/--
```ts
const formatDuration = (milliseconds: number) => {
  const seconds = Math.floor(milliseconds / 1000);
  const minutes = Math.floor(seconds / 60);
  const remainingSeconds = seconds % 60;
  return `${minutes}:${remainingSeconds.toString().padStart(2, '0')}`;
};
```
-/
def formatDuration (milliseconds : Nat) : String :=
  let seconds := milliseconds / 1000
  let minutes := seconds / 60
  let remainingSeconds := seconds % 60
  toString minutes ++ ":" ++ padStart (toString remainingSeconds) 2 '0'

/-- The claim's rendering of the seconds part: exactly two digits,
zero-padded. -/
def twoDigit (n : Nat) : String :=
  if n < 10 then "0" ++ toString n else toString n

theorem padStart_two_digit : ∀ r : Nat, r < 60 →
    padStart (toString r) 2 '0' = twoDigit r := by
  decide

/-- C10: for every non-negative millisecond value, `formatDuration`
returns `floor(ms/1000/60)`, a colon, and `floor(ms/1000) mod 60`
rendered as exactly two zero-padded digits. -/
theorem formatDuration_spec (ms : Nat) :
    formatDuration ms =
      toString (ms / 1000 / 60) ++ ":" ++ twoDigit (ms / 1000 % 60) := by
  show toString (ms / 1000 / 60) ++ ":" ++ padStart (toString (ms / 1000 % 60)) 2 '0' = _
  rw [padStart_two_digit (ms / 1000 % 60) (Nat.mod_lt _ (by decide))]

/-! ## Sales-call analysis reply handling (`app/(tabs)/index.tsx`)

After an ok response, `sendAudioForTranscription` does

```ts
const data = await response.json();
...
if (!data.transcription || !data.analysis) {
  throw new Error('Invalid response format from server');
}
setTranscription(data.transcription);
setAnalysis(data.analysis);
```

with `setTranscription(null); setAnalysis(null);` at the start of the
function and no other assignment on the throwing path, so on a throw
both states remain `null`.
-/

/-- The validation-and-set step above, as a function of the parsed
reply `data`: the raised error, or the pair of values the two states
are set to.  `||` short-circuits, so `data.analysis` is only read when
`data.transcription` is truthy. -/
def processAnalyzeReply (data : JSVal) : Except String (JSVal × JSVal) := do
  let t ← data.getField "transcription"
  if !t.truthy then .error "Invalid response format from server"
  else do
    let a ← data.getField "analysis"
    if !a.truthy then .error "Invalid response format from server"
    else .ok (t, a)

/-- The final `(transcription, analysis)` component states after the
step: `none` models the initial `null`. -/
def sendAudioStates (data : JSVal) : Option JSVal × Option JSVal :=
  match processAnalyzeReply data with
  | .ok (t, a) => (some t, some a)
  | .error _ => (none, none)

/-- C6 (counterexample): a reply that has both fields — with
`transcription` present but equal to the empty string — still raises
`Invalid response format from server`, and neither state is set;
the claim as stated says both states would be set. -/
theorem analyze_reply_present_but_falsy :
    ([(("transcription" : String), JSVal.str ""),
      ("analysis", JSVal.str "great call")].lookup "transcription" =
        some (JSVal.str "")) ∧
    processAnalyzeReply
        (JSVal.obj [("transcription", JSVal.str ""),
          ("analysis", JSVal.str "great call")]) =
      .error "Invalid response format from server" ∧
    sendAudioStates
        (JSVal.obj [("transcription", JSVal.str ""),
          ("analysis", JSVal.str "great call")]) = (none, none) :=
  ⟨rfl, rfl, rfl⟩

/-- C6 (amended): for an object reply, when either field is missing or
falsy (e.g. the empty string) the function raises
`Invalid response format from server` and both states remain unset;
when both fields are truthy, the states are set to exactly the reply's
two values. -/
theorem analyze_reply_validation (fields : List (String × JSVal)) :
    (((JSVal.obj fields).fieldOf "transcription").truthy = false ∨
        ((JSVal.obj fields).fieldOf "analysis").truthy = false →
      processAnalyzeReply (JSVal.obj fields) =
        .error "Invalid response format from server" ∧
      sendAudioStates (JSVal.obj fields) = (none, none)) ∧
    (((JSVal.obj fields).fieldOf "transcription").truthy = true →
      ((JSVal.obj fields).fieldOf "analysis").truthy = true →
      processAnalyzeReply (JSVal.obj fields) =
        .ok ((JSVal.obj fields).fieldOf "transcription",
          (JSVal.obj fields).fieldOf "analysis") ∧
      sendAudioStates (JSVal.obj fields) =
        (some ((JSVal.obj fields).fieldOf "transcription"),
         some ((JSVal.obj fields).fieldOf "analysis"))) := by
  have hget : ∀ f : String, (JSVal.obj fields).getField f =
      .ok ((JSVal.obj fields).fieldOf f) := by
    intro f
    rfl
  constructor
  · intro h
    have hproc : processAnalyzeReply (JSVal.obj fields) =
        .error "Invalid response format from server" := by
      unfold processAnalyzeReply
      rw [hget, hget]
      rcases h with h | h
      · simp [Bind.bind, Except.bind, h]
      · by_cases ht : ((JSVal.obj fields).fieldOf "transcription").truthy = true
        · simp [Bind.bind, Except.bind, ht, h]
        · simp only [Bool.not_eq_true] at ht
          simp [Bind.bind, Except.bind, ht]
    exact ⟨hproc, by unfold sendAudioStates; rw [hproc]⟩
  · intro ht ha
    have hproc : processAnalyzeReply (JSVal.obj fields) =
        .ok ((JSVal.obj fields).fieldOf "transcription",
          (JSVal.obj fields).fieldOf "analysis") := by
      unfold processAnalyzeReply
      rw [hget, hget]
      simp [Bind.bind, Except.bind, ht, ha]
    exact ⟨hproc, by unfold sendAudioStates; rw [hproc]⟩

/-- C6 (witness): a reply with two non-empty strings sets both
states to those values. -/
theorem analyze_reply_validation_example :
    sendAudioStates
        (JSVal.obj [("transcription", JSVal.str "hello"),
          ("analysis", JSVal.str "good rapport")]) =
      (some (JSVal.str "hello"), some (JSVal.str "good rapport")) :=
  ((analyze_reply_validation
      [("transcription", JSVal.str "hello"),
       ("analysis", JSVal.str "good rapport")]).2 rfl rfl).2

/-! ## `isValidAcademicResponse`

```ts
export const isValidAcademicResponse = (data: any): boolean => {
  return (
    data &&
    (data.recommendations || data.analysis || data.summary ||
      data.transcription || data.text)
  );
};
```

`&&`/`||` return an operand, not a boolean, so the function's result is
a JavaScript value whose truthiness is what callers test.  When `data`
is falsy, `&&` short-circuits and no property is read, so the function
can never throw.
-/

def isValidAcademicResponse (data : JSVal) : Except String JSVal :=
  if !data.truthy then .ok data
  else do
    let r ← data.getField "recommendations"
    if r.truthy then .ok r
    else do
      let a ← data.getField "analysis"
      if a.truthy then .ok a
      else do
        let s ← data.getField "summary"
        if s.truthy then .ok s
        else do
          let t ← data.getField "transcription"
          if t.truthy then .ok t
          else data.getField "text"

/-- The value of the inner `||` chain, read off the fields. -/
def orChainValue (data : JSVal) : JSVal :=
  if (data.fieldOf "recommendations").truthy then data.fieldOf "recommendations"
  else if (data.fieldOf "analysis").truthy then data.fieldOf "analysis"
  else if (data.fieldOf "summary").truthy then data.fieldOf "summary"
  else if (data.fieldOf "transcription").truthy then data.fieldOf "transcription"
  else data.fieldOf "text"

/-- Whether at least one of the five fields is truthy. -/
def hasAcademicField (data : JSVal) : Bool :=
  (data.fieldOf "recommendations").truthy || (data.fieldOf "analysis").truthy ||
    (data.fieldOf "summary").truthy || (data.fieldOf "transcription").truthy ||
    (data.fieldOf "text").truthy

theorem orChainValue_truthy (data : JSVal) :
    (orChainValue data).truthy = hasAcademicField data := by
  unfold orChainValue hasAcademicField
  by_cases h1 : (data.fieldOf "recommendations").truthy = true
  · simp [h1]
  · simp only [Bool.not_eq_true] at h1
    by_cases h2 : (data.fieldOf "analysis").truthy = true
    · simp [h1, h2]
    · simp only [Bool.not_eq_true] at h2
      by_cases h3 : (data.fieldOf "summary").truthy = true
      · simp [h1, h2, h3]
      · simp only [Bool.not_eq_true] at h3
        by_cases h4 : (data.fieldOf "transcription").truthy = true
        · simp [h1, h2, h3, h4]
        · simp only [Bool.not_eq_true] at h4
          simp [h1, h2, h3, h4]

/-- C9: `isValidAcademicResponse` never throws for any input — it
always returns a value — and the returned value is truthy if and only
if `data` is truthy and at least one of `recommendations`, `analysis`,
`summary`, `transcription`, `text` is truthy. -/
theorem isValidAcademicResponse_spec (data : JSVal) :
    isValidAcademicResponse data =
      .ok (if data.truthy then orChainValue data else data) ∧
    (if data.truthy then orChainValue data else data).truthy =
      (data.truthy && hasAcademicField data) := by
  constructor
  · by_cases hd : data.truthy = true
    · have hget : ∀ f : String, data.getField f = .ok (data.fieldOf f) :=
        fun f => JSVal.getField_eq_fieldOf data f hd
      unfold isValidAcademicResponse
      rw [hd]
      simp only [Bool.not_true, Bool.false_eq_true, if_false, if_true, hget,
        Bind.bind, Except.bind]
      unfold orChainValue
      simp only [apply_ite Except.ok]
    · simp only [Bool.not_eq_true] at hd
      unfold isValidAcademicResponse
      simp [hd]
  · by_cases hd : data.truthy = true
    · rw [if_pos hd, hd, Bool.true_and]
      exact orChainValue_truthy data
    · simp only [Bool.not_eq_true] at hd
      rw [hd]
      simp [hd]

/-! ## Endpoint fallback loop (majors-exploration screen)

```ts
const endpointsToTry = [ ...seven URLs... ];
let response: Response | null = null;
let workingEndpoint = '';
for (const endpoint of endpointsToTry) {
  try {
    response = await fetch(endpoint, ...);
    if (response.ok) { workingEndpoint = endpoint; ...; break; }
    else if (response.status === 404) { continue; }
    else { workingEndpoint = endpoint; break; }
  } catch (error) { continue; }
}
```

A thrown fetch leaves `response` at its previous value; a 404 leaves it
holding that 404 response.  We model the network by an oracle from URL
to outcome, and carry `response` as the originating endpoint paired
with its status.
-/

def endpointsToTry : List String :=
  ["http://10.34.102.133:8000/explore_majors",
   "http://10.34.102.133:8000/analyze_sales_call",
   "http://10.34.102.133:8000/analyze",
   "http://10.34.102.133:8000/transcribe",
   "http://10.34.102.133:8000/api/explore_majors",
   "http://10.34.102.133:8000/api/analyze",
   "http://10.34.102.133:8000/v1/explore_majors"]

inductive FetchOutcome where
  | throws (msg : String)
  | resp (status : Nat)

/-- `response.ok` per the Fetch standard: status in 200–299. -/
def statusOk (s : Nat) : Bool := 200 ≤ s && s ≤ 299

/-- The `for`/`try` loop above. Arguments: the network oracle, the
remaining endpoints, the current `response` (originating endpoint and
status; `none` models the initial `null`), and the current
`workingEndpoint`.  Returns the final `(response, workingEndpoint)`. -/
def runEndpointLoop (net : String → FetchOutcome) :
    List String → Option (String × Nat) → String →
      Option (String × Nat) × String
  | [], r, w => (r, w)
  | e :: es, r, w =>
    match net e with
    | .throws _ => runEndpointLoop net es r w
    | .resp s =>
      if statusOk s then (some (e, s), e)
      else if s == 404 then runEndpointLoop net es (some (e, s)) w
      else (some (e, s), e)

/-- The loop as run by `sendAudioForTranscription`. -/
def sendAudioEndpointResult (net : String → FetchOutcome) :
    Option (String × Nat) × String :=
  runEndpointLoop net endpointsToTry none ""

/-- The loop moves past an endpoint: the fetch threw, or it returned a
non-ok 404. -/
def endpointSkipped (net : String → FetchOutcome) (e : String) : Bool :=
  match net e with
  | .throws _ => true
  | .resp s => !statusOk s && s == 404

/-- The loop stops at an endpoint: its response is ok, or its status is
an error other than 404. -/
def endpointDecides (net : String → FetchOutcome) (e : String) : Bool :=
  match net e with
  | .throws _ => false
  | .resp s => statusOk s || s != 404

theorem runEndpointLoop_first_decider (net : String → FetchOutcome) :
    ∀ es : List String, ∀ i : Nat, i < es.length →
      (∀ j : Nat, j < i → endpointSkipped net (es.getD j "") = true) →
      endpointDecides net (es.getD i "") = true →
      ∀ r : Option (String × Nat), ∀ w : String,
        ∃ s : Nat, net (es.getD i "") = .resp s ∧
          runEndpointLoop net es r w = (some (es.getD i "", s), es.getD i "") := by
  intro es
  induction es with
  | nil =>
    intro i hi
    exact absurd hi (by simp)
  | cons e es ih =>
    intro i hi hskip hdec r w
    cases i with
    | zero =>
      simp only [List.getD_cons_zero] at hdec ⊢
      unfold endpointDecides at hdec
      unfold runEndpointLoop
      cases hnet : net e with
      | throws m =>
        rw [hnet] at hdec
        exact absurd hdec (by simp)
      | resp s =>
        rw [hnet] at hdec
        dsimp only at hdec
        refine ⟨s, rfl, ?_⟩
        dsimp only
        by_cases hok : statusOk s = true
        · rw [if_pos hok]
        · have h404 : (s == 404) = false := by
            rw [Bool.or_eq_true] at hdec
            rcases hdec with h | h
            · exact absurd h hok
            · simpa using h
          rw [if_neg hok, h404]
          simp
    | succ i =>
      have h0 := hskip 0 (Nat.succ_pos i)
      simp only [List.getD_cons_zero] at h0
      unfold endpointSkipped at h0
      simp only [List.getD_cons_succ] at hskip hdec ⊢
      have hi' : i < es.length := by
        simpa [Nat.succ_lt_succ_iff] using hi
      have hskip' : ∀ j : Nat, j < i → endpointSkipped net (es.getD j "") = true := by
        intro j hj
        have := hskip (j + 1) (Nat.succ_lt_succ hj)
        simpa using this
      unfold runEndpointLoop
      cases hnet : net e with
      | throws m =>
        dsimp only
        exact ih i hi' hskip' hdec r w
      | resp s =>
        rw [hnet] at h0
        dsimp only at h0 ⊢
        rw [Bool.and_eq_true] at h0
        rcases h0 with ⟨hnok, h404⟩
        rw [Bool.not_eq_true'] at hnok
        rw [if_neg (by simp [hnok]), if_pos h404]
        exact ih i hi' hskip' hdec (some (e, s)) w

/-- C7: the fixed list has exactly seven endpoints, `explore_majors`
first; the loop tries them strictly in declaration order, continues
past any endpoint that throws or answers a non-ok 404, and stops at
the first endpoint whose response is ok or a non-404 error — that
endpoint's response (and it as `workingEndpoint`) is what all
subsequent processing uses. -/
theorem endpoint_fallback_order :
    endpointsToTry.length = 7 ∧
    endpointsToTry.head? = some "http://10.34.102.133:8000/explore_majors" ∧
    (∀ net : String → FetchOutcome, ∀ i : Nat, i < endpointsToTry.length →
      (∀ j : Nat, j < i → endpointSkipped net (endpointsToTry.getD j "") = true) →
      endpointDecides net (endpointsToTry.getD i "") = true →
      ∃ s : Nat, net (endpointsToTry.getD i "") = .resp s ∧
        sendAudioEndpointResult net =
          (some (endpointsToTry.getD i "", s), endpointsToTry.getD i "")) := by
  refine ⟨rfl, rfl, ?_⟩
  intro net i hi hskip hdec
  exact runEndpointLoop_first_decider net endpointsToTry i hi hskip hdec none ""

/-- A concrete network: `explore_majors` answers 404,
`analyze_sales_call` throws, everything else answers 200. -/
def netExample : String → FetchOutcome := fun e =>
  if e == "http://10.34.102.133:8000/explore_majors" then .resp 404
  else if e == "http://10.34.102.133:8000/analyze_sales_call" then
    .throws "Network request failed"
  else .resp 200

/-- C7 (witness): on `netExample` the loop skips the first two
endpoints and stops at the third, whose 200 response is the result. -/
theorem endpoint_fallback_order_example :
    sendAudioEndpointResult netExample =
      (some ("http://10.34.102.133:8000/analyze", 200),
       "http://10.34.102.133:8000/analyze") := by
  obtain ⟨s, hs, hres⟩ :=
    endpoint_fallback_order.2.2 netExample 2 (by decide) (by decide) (by decide)
  have h200 : netExample (endpointsToTry.getD 2 "") = .resp 200 := rfl
  rw [h200] at hs
  cases hs
  exact hres

/-! ## `formatAcademicRecommendations` (both variants)

The helper exists twice: in `utils/academicApi.ts`, and (slightly
reduced) inside the majors-exploration screen, where it additionally
returns `recommendations` directly when it is a string and omits the
skills/next-steps sections.  Template-literal interpolation `${x}` and
string `+` use the JavaScript string coercion, modelled by
`jsToString`; `Array.prototype.join` renders `null`/`undefined`
elements as empty strings.  Numeric coercion of non-number values in
`> 0` comparisons is not modelled (the compared value is a `.length`,
which is a number for arrays and strings).
-/

mutual

def jsToString : JSVal → String
  | .undefined => "undefined"
  | .null => "null"
  | .bool b => cond b "true" "false"
  | .num n => toString n
  | .str s => s
  | .obj _ => "[object Object]"
  | .arr elems => String.intercalate "," (jsToStringList elems)

def jsToStringList : List JSVal → List String
  | [] => []
  | .undefined :: vs => "" :: jsToStringList vs
  | .null :: vs => "" :: jsToStringList vs
  | v :: vs => jsToString v :: jsToStringList vs

end

/-- `v.join(sep)`: joins an array; throws on non-arrays. -/
def jsJoin (v : JSVal) (sep : String) : Except String String :=
  match v with
  | .arr elems => .ok (String.intercalate sep (jsToStringList elems))
  | .undefined => .error "TypeError: cannot read properties of undefined"
  | .null => .error "TypeError: cannot read properties of null"
  | _ => .error "TypeError: join is not a function"

/-- `v.length` as a JavaScript value. -/
def jsLengthVal : JSVal → Except String JSVal
  | .undefined => .error "TypeError: cannot read properties of undefined"
  | .null => .error "TypeError: cannot read properties of null"
  | .arr elems => .ok (.num elems.length)
  | .str s => .ok (.num s.length)
  | .obj fields => .ok ((fields.lookup "length").getD .undefined)
  | _ => .ok .undefined

/-- `x > 0` for a length value (numbers compare numerically; `true`
coerces to 1; `undefined` and the rest compare false). -/
def jsGtZero : JSVal → Bool
  | .num n => 0 < n
  | .bool b => b
  | _ => false

/-- The guard pattern `xs && xs.length > 0` (`&&` short-circuits, so
`.length` is only read on a truthy receiver). -/
def truthyWithPositiveLength (v : JSVal) : Except String Bool :=
  if !v.truthy then .ok false
  else do
    let len ← jsLengthVal v
    .ok (jsGtZero len)

/-- `forEach` requires an actual array. -/
def asArray (v : JSVal) : Except String (List JSVal) :=
  match v with
  | .arr elems => .ok elems
  | _ => .error "TypeError: forEach is not a function"

/-- One iteration of the majors `forEach` in `utils/academicApi.ts`
(name line, optional description, career paths, skills developed,
blank line). -/
def formatMajorApi (index : Nat) (major : JSVal) : Except String String := do
  let name ← major.getField "name"
  let line1 := toString (index + 1) ++ ". **" ++ jsToString name ++ "**\n"
  let desc ← major.getField "description"
  let descLine := if desc.truthy then "   " ++ jsToString desc ++ "\n" else ""
  let cp ← major.getField "career_paths"
  let cpCond ← truthyWithPositiveLength cp
  let cpLine ←
    if cpCond then do
      let joined ← jsJoin cp ", "
      pure ("   🚀 **Career Paths:** " ++ joined ++ "\n")
    else pure ""
  let sk ← major.getField "skills_developed"
  let skCond ← truthyWithPositiveLength sk
  let skLine ←
    if skCond then do
      let joined ← jsJoin sk ", "
      pure ("   💪 **Skills Developed:** " ++ joined ++ "\n")
    else pure ""
  pure (line1 ++ descLine ++ cpLine ++ skLine ++ "\n")

def formatMajorsApiGo (index : Nat) : List JSVal → Except String String
  | [] => pure ""
  | m :: ms => do
    let s ← formatMajorApi index m
    let rest ← formatMajorsApiGo (index + 1) ms
    pure (s ++ rest)

/-- One iteration of the majors `forEach` in the majors-exploration
screen's variant (no skills section). -/
def formatMajorP5 (index : Nat) (major : JSVal) : Except String String := do
  let name ← major.getField "name"
  let line1 := toString (index + 1) ++ ". **" ++ jsToString name ++ "**\n"
  let desc ← major.getField "description"
  let descLine := if desc.truthy then "   " ++ jsToString desc ++ "\n" else ""
  let cp ← major.getField "career_paths"
  let cpCond ← truthyWithPositiveLength cp
  let cpLine ←
    if cpCond then do
      let joined ← jsJoin cp ", "
      pure ("   🚀 **Career Paths:** " ++ joined ++ "\n")
    else pure ""
  pure (line1 ++ descLine ++ cpLine ++ "\n")

def formatMajorsP5Go (index : Nat) : List JSVal → Except String String
  | [] => pure ""
  | m :: ms => do
    let s ← formatMajorP5 index m
    let rest ← formatMajorsP5Go (index + 1) ms
    pure (s ++ rest)

def formatMinorsGo (index : Nat) : List JSVal → Except String String
  | [] => pure ""
  | m :: ms => do
    let name ← m.getField "name"
    let rest ← formatMinorsGo (index + 1) ms
    pure (toString (index + 1) ++ ". " ++ jsToString name ++ "\n" ++ rest)

def formatStepsGo (index : Nat) : List JSVal → Except String String
  | [] => pure ""
  | st :: sts => do
    let rest ← formatStepsGo (index + 1) sts
    pure (toString (index + 1) ++ ". " ++ jsToString st ++ "\n" ++ rest)

/-- `formatAcademicRecommendations` from `utils/academicApi.ts`. -/
def formatAcademicRecommendationsApi (data : JSVal) : Except String JSVal := do
  let recs ← data.getField "recommendations"
  if !recs.truthy then do
    let a ← data.getField "analysis"
    if a.truthy then pure a
    else do
      let s ← data.getField "summary"
      if s.truthy then pure s
      else pure (JSVal.str "No recommendations available.")
  else do
    let header := "🎓 **Your Academic Path Recommendations**\n\n"
    let majors ← recs.getField "majors"
    let majorsCond ← truthyWithPositiveLength majors
    let majorsSection ←
      if majorsCond then do
        let ms ← asArray majors
        let body ← formatMajorsApiGo 0 ms
        pure ("**🎯 Recommended Majors:**\n\n" ++ body)
      else pure ""
    let minors ← recs.getField "minors"
    let minorsCond ← truthyWithPositiveLength minors
    let minorsSection ←
      if minorsCond then do
        let ms ← asArray minors
        let body ← formatMinorsGo 0 ms
        pure ("\n**📚 Suggested Minors:**\n" ++ body ++ "\n")
      else pure ""
    let cg ← recs.getField "career_guidance"
    let cgSection :=
      if cg.truthy then "\n**💡 Career Guidance:**\n" ++ jsToString cg ++ "\n\n"
      else ""
    let ns ← recs.getField "next_steps"
    let nsCond ← truthyWithPositiveLength ns
    let nsSection ←
      if nsCond then do
        let sts ← asArray ns
        let body ← formatStepsGo 0 sts
        pure ("**📋 Next Steps:**\n" ++ body)
      else pure ""
    pure (JSVal.str (header ++ majorsSection ++ minorsSection ++ cgSection ++ nsSection))

/-- `formatAcademicRecommendations` from the majors-exploration screen:
returns `recommendations` directly when it is a string, and has no
skills or next-steps sections. -/
def formatAcademicRecommendationsP5 (data : JSVal) : Except String JSVal := do
  let recs ← data.getField "recommendations"
  if !recs.truthy then do
    let a ← data.getField "analysis"
    if a.truthy then pure a
    else do
      let s ← data.getField "summary"
      if s.truthy then pure s
      else pure (JSVal.str "No recommendations available.")
  else
    match recs with
    | .str s => pure (JSVal.str s)
    | recs => do
      let header := "🎓 **Your Academic Path Recommendations**\n\n"
      let majors ← recs.getField "majors"
      let majorsCond ← truthyWithPositiveLength majors
      let majorsSection ←
        if majorsCond then do
          let ms ← asArray majors
          let body ← formatMajorsP5Go 0 ms
          pure ("**🎯 Recommended Majors:**\n\n" ++ body)
        else pure ""
      let minors ← recs.getField "minors"
      let minorsCond ← truthyWithPositiveLength minors
      let minorsSection ←
        if minorsCond then do
          let ms ← asArray minors
          let body ← formatMinorsGo 0 ms
          pure ("\n**📚 Suggested Minors:**\n" ++ body ++ "\n")
        else pure ""
      let cg ← recs.getField "career_guidance"
      let cgSection :=
        if cg.truthy then "\n**💡 Career Guidance:**\n" ++ jsToString cg ++ "\n\n"
        else ""
      pure (JSVal.str (header ++ majorsSection ++ minorsSection ++ cgSection))

/-- The value of `data.analysis || data.summary || 'No recommendations
available.'`. -/
def fallbackValue (data : JSVal) : JSVal :=
  if (data.fieldOf "analysis").truthy then data.fieldOf "analysis"
  else if (data.fieldOf "summary").truthy then data.fieldOf "summary"
  else JSVal.str "No recommendations available."

/-- C8 (counterexample): an input with no `recommendations` field whose
`analysis` field is present but the empty string (falsy): both
variants skip it and return `'No recommendations available.'`, while
the claim as stated ("the input's analysis field if present") demands
the empty string back.  Likewise the part_005 variant does not return
an empty-string `recommendations` unchanged — the falsy branch wins. -/
theorem format_recs_present_but_falsy :
    ([(("analysis" : String), JSVal.str "")].lookup "analysis" =
        some (JSVal.str "")) ∧
    formatAcademicRecommendationsApi (JSVal.obj [("analysis", JSVal.str "")]) =
      .ok (JSVal.str "No recommendations available.") ∧
    formatAcademicRecommendationsP5 (JSVal.obj [("analysis", JSVal.str "")]) =
      .ok (JSVal.str "No recommendations available.") ∧
    formatAcademicRecommendationsP5
        (JSVal.obj [("recommendations", JSVal.str "")]) =
      .ok (JSVal.str "No recommendations available.") :=
  ⟨rfl, rfl, rfl, rfl⟩

/-- C8 (amended): for every input object whose `recommendations` field
is falsy (absent, or present but falsy), both variants return the
`analysis` field if truthy, else the `summary` field if truthy, else
`'No recommendations available.'`; and the part_005 variant returns a
`recommendations` string unchanged whenever it is non-empty (an empty
string is falsy and takes the fallback branch). -/
theorem format_recs_fallback (fields : List (String × JSVal)) :
    (((JSVal.obj fields).fieldOf "recommendations").truthy = false →
      formatAcademicRecommendationsApi (JSVal.obj fields) =
        .ok (fallbackValue (JSVal.obj fields)) ∧
      formatAcademicRecommendationsP5 (JSVal.obj fields) =
        .ok (fallbackValue (JSVal.obj fields))) ∧
    (∀ s : String, (JSVal.obj fields).fieldOf "recommendations" = .str s →
      s ≠ "" →
      formatAcademicRecommendationsP5 (JSVal.obj fields) = .ok (JSVal.str s)) := by
  have hget : ∀ f : String, (JSVal.obj fields).getField f =
      .ok ((JSVal.obj fields).fieldOf f) := fun f => rfl
  constructor
  · intro hrec
    constructor
    · unfold formatAcademicRecommendationsApi fallbackValue
      simp only [hget, Bind.bind, Except.bind, hrec, Bool.not_false, if_true,
        Pure.pure, Except.pure]
      by_cases ha : ((JSVal.obj fields).fieldOf "analysis").truthy = true
      · simp [ha]
      · simp only [Bool.not_eq_true] at ha
        by_cases hs : ((JSVal.obj fields).fieldOf "summary").truthy = true
        · simp [ha, hs]
        · simp only [Bool.not_eq_true] at hs
          simp [ha, hs]
    · unfold formatAcademicRecommendationsP5 fallbackValue
      simp only [hget, Bind.bind, Except.bind, hrec, Bool.not_false, if_true,
        Pure.pure, Except.pure]
      by_cases ha : ((JSVal.obj fields).fieldOf "analysis").truthy = true
      · simp [ha]
      · simp only [Bool.not_eq_true] at ha
        by_cases hs : ((JSVal.obj fields).fieldOf "summary").truthy = true
        · simp [ha, hs]
        · simp only [Bool.not_eq_true] at hs
          simp [ha, hs]
  · intro s hs hne
    have htr : (JSVal.str s).truthy = true := by
      simp [JSVal.truthy, hne]
    unfold formatAcademicRecommendationsP5
    simp only [hget, Bind.bind, Except.bind, hs, htr, Bool.not_true,
      Bool.false_eq_true, if_false, Pure.pure, Except.pure]

/-- C8 (witness): with only a `summary` present both variants return
it, and the part_005 variant passes a non-empty `recommendations`
string straight through. -/
theorem format_recs_fallback_example :
    formatAcademicRecommendationsApi (JSVal.obj [("summary", JSVal.str "short")]) =
      .ok (JSVal.str "short") ∧
    formatAcademicRecommendationsP5
        (JSVal.obj [("recommendations", JSVal.str "Take CS 101.")]) =
      .ok (JSVal.str "Take CS 101.") := by
  constructor
  · have h := ((format_recs_fallback [("summary", JSVal.str "short")]).1 rfl).1
    rw [h]
    rfl
  · exact (format_recs_fallback
      [("recommendations", JSVal.str "Take CS 101.")]).2 "Take CS 101." rfl
      (by decide)

end SalesAssist
